import Mathlib

/-!
Verification of the clean-snap real-time screen-recording pipeline.

Shallow embedding of the recording core:
- `src/utils/frameBuffer.ts` (bounded frame queue with drop strategy),
- `src/hooks/useVideoRecorder.ts` (start guard, crop computation, mode
  decision, license duration limit),
- `src/index.tsx` (`stop-recording-stream` IPC handler: transcode decision,
  result shapes, progress emission),
- `src/services/geminiService.ts` (`getMaxRecordingDuration`).

JavaScript numbers are modelled as `ℚ` (with `Int.floor`/`Int.ceil` for
`Math.floor`/`Math.ceil`), counters as `ℕ`, and fallible/branching IPC code
as explicit result types.
-/

namespace CleanSnap

/-! ## Frame buffer (`src/utils/frameBuffer.ts`) -/

/-- Drop policy of the bounded frame queue (`DropStrategy` enum). -/
inductive DropStrategy where
  | dropOldest
  | dropNewest
  deriving DecidableEq

/-- `FrameBufferConfig` from `frameBuffer.ts`. -/
structure FrameBufferConfig where
  maxSize : ℕ
  dropStrategy : DropStrategy
  targetFps : ℚ
  deriving DecidableEq

/-- The running counters held in `FrameBuffer.stats`. -/
structure FrameBufferStats where
  framesReceived : ℕ
  framesDropped : ℕ
  framesProcessed : ℕ
  deriving DecidableEq

/-- The `FrameBuffer` class state: a FIFO queue (head = oldest), its
configuration and its statistics. -/
structure FrameBuffer (α : Type) where
  queue : List α
  config : FrameBufferConfig
  stats : FrameBufferStats
  deriving DecidableEq

/-- The capacity computed by `adjustQueueDepth`:
`Math.max(3, Math.min(8, Math.ceil((fps / 30) * 5)))`. -/
def adjustedQueueDepth (fps : ℚ) : ℕ :=
  (max 3 (min 8 ⌈fps / 30 * 5⌉)).toNat

/-- `FrameBuffer.adjustQueueDepth`: recompute `config.maxSize` from the
frame rate; nothing else is touched. -/
def FrameBuffer.adjustQueueDepth (b : FrameBuffer α) (fps : ℚ) : FrameBuffer α :=
  { b with config := { b.config with maxSize := adjustedQueueDepth fps } }

/-- `FrameBuffer.add`: bump `framesReceived`; if the queue is at (or over)
capacity, bump `framesDropped` and evict one entry (`shift` = drop head for
`DropOldest`, `pop` = drop tail for `DropNewest`); then `push` the new frame
at the tail.  Always returns `true`. -/
def FrameBuffer.add (b : FrameBuffer α) (frame : α) : FrameBuffer α × Bool :=
  let stats1 := { b.stats with framesReceived := b.stats.framesReceived + 1 }
  if b.config.maxSize ≤ b.queue.length then
    let stats2 := { stats1 with framesDropped := stats1.framesDropped + 1 }
    let queue1 :=
      match b.config.dropStrategy with
      | .dropOldest => b.queue.tail
      | .dropNewest => b.queue.dropLast
    ({ b with queue := queue1 ++ [frame], stats := stats2 }, true)
  else
    ({ b with queue := b.queue ++ [frame], stats := stats1 }, true)

/-- Run a sequence of `add` calls, discarding the (always-`true`) results. -/
def FrameBuffer.addAll (b : FrameBuffer α) (frames : List α) : FrameBuffer α :=
  frames.foldl (fun acc f => (acc.add f).1) b

theorem FrameBuffer.add_config (b : FrameBuffer α) (f : α) :
    ((b.add f).1).config = b.config := by
  unfold FrameBuffer.add
  split <;> rfl

theorem FrameBuffer.add_length_le (b : FrameBuffer α) (f : α)
    (hcap : 1 ≤ b.config.maxSize) (hlen : b.queue.length ≤ b.config.maxSize) :
    ((b.add f).1).queue.length ≤ b.config.maxSize := by
  unfold FrameBuffer.add
  split
  · rename_i hfull
    cases b.config.dropStrategy <;>
      simp only [List.length_append, List.length_tail, List.length_dropLast,
        List.length_cons, List.length_nil] <;> omega
  · rename_i hnotfull
    simp only [List.length_append, List.length_cons, List.length_nil]
    omega

theorem FrameBuffer.addAll_invariant (b : FrameBuffer α) (fs : List α)
    (hcap : 1 ≤ b.config.maxSize) (hlen : b.queue.length ≤ b.config.maxSize) :
    (b.addAll fs).queue.length ≤ b.config.maxSize ∧
      (b.addAll fs).config = b.config := by
  induction fs generalizing b with
  | nil => exact ⟨hlen, rfl⟩
  | cons f fs ih =>
    have hc := FrameBuffer.add_config b f
    have hl := FrameBuffer.add_length_le b f hcap hlen
    have := ih (b.add f).1 (hc ▸ hcap) (hc ▸ hl)
    simpa [FrameBuffer.addAll, hc] using this

/-- Claim C3: starting from an empty buffer with a fixed capacity
`maxSize ≥ 1`, no sequence of `add` calls ever pushes the queue length above
`maxSize`; an `add` on a full queue first evicts exactly one entry (the head
under `DropOldest`, the tail under `DropNewest`) before appending, bumps
`framesDropped` exactly in that case, and `add` always returns `true`. -/
theorem frameBuffer_add_spec (α : Type) (b0 : FrameBuffer α) (fs : List α)
    (hcap : 1 ≤ b0.config.maxSize) (hempty : b0.queue = []) :
    (b0.addAll fs).queue.length ≤ b0.config.maxSize ∧
    (∀ (b : FrameBuffer α) (f : α), b.queue.length = b.config.maxSize →
      ((b.add f).1.queue =
          (match b.config.dropStrategy with
           | .dropOldest => b.queue.tail
           | .dropNewest => b.queue.dropLast) ++ [f] ∧
        (b.add f).1.stats.framesDropped = b.stats.framesDropped + 1)) ∧
    (∀ (b : FrameBuffer α) (f : α), b.queue.length < b.config.maxSize →
      ((b.add f).1.queue = b.queue ++ [f] ∧
        (b.add f).1.stats.framesDropped = b.stats.framesDropped)) ∧
    (∀ (b : FrameBuffer α) (f : α), (b.add f).2 = true) := by
  refine ⟨?_, ?_, ?_, ?_⟩
  · exact (FrameBuffer.addAll_invariant b0 fs hcap (by simp [hempty])).1
  · intro b f hfull
    unfold FrameBuffer.add
    rw [if_pos (le_of_eq hfull.symm)]
    exact ⟨rfl, rfl⟩
  · intro b f hroom
    unfold FrameBuffer.add
    rw [if_neg (by omega)]
    exact ⟨rfl, rfl⟩
  · intro b f
    unfold FrameBuffer.add
    split <;> rfl

/-- Witness for C3: a concrete overflow run with capacity 3. -/
theorem frameBuffer_add_spec_witness :
    (1 ≤ 3 ∧ ([] : List ℕ) = []) ∧
    ((FrameBuffer.addAll ⟨[], ⟨3, .dropOldest, 30⟩, ⟨0, 0, 0⟩⟩
        ([10, 20, 30, 40] : List ℕ)).queue.length ≤ 3) := by
  refine ⟨⟨by decide, rfl⟩, ?_⟩
  exact (frameBuffer_add_spec ℕ ⟨[], ⟨3, .dropOldest, 30⟩, ⟨0, 0, 0⟩⟩
    [10, 20, 30, 40] (by decide) rfl).1

/-- Claim C4: `adjustQueueDepth fps` sets the capacity to
`max 3 (min 8 ⌈fps / 30 * 5⌉)`; the capacity always lies in `[3, 8]`, is
monotone in `fps`, doubling `fps` never decreases it, and `fps = 25` yields
capacity `5`. -/
theorem adjustQueueDepth_spec (α : Type) (b : FrameBuffer α) (fps : ℚ) :
    ((b.adjustQueueDepth fps).config.maxSize
        = (max 3 (min 8 ⌈fps / 30 * 5⌉)).toNat) ∧
    (3 ≤ (b.adjustQueueDepth fps).config.maxSize ∧
      (b.adjustQueueDepth fps).config.maxSize ≤ 8) ∧
    (∀ fps1 fps2 : ℚ, fps1 ≤ fps2 →
      adjustedQueueDepth fps1 ≤ adjustedQueueDepth fps2) ∧
    (∀ f : ℚ, adjustedQueueDepth f ≤ adjustedQueueDepth (2 * f)) ∧
    adjustedQueueDepth 25 = 5 := by
  have hmono : ∀ fps1 fps2 : ℚ, fps1 ≤ fps2 →
      adjustedQueueDepth fps1 ≤ adjustedQueueDepth fps2 := by
    intro fps1 fps2 h
    unfold adjustedQueueDepth
    have hceil : ⌈fps1 / 30 * 5⌉ ≤ ⌈fps2 / 30 * 5⌉ :=
      Int.ceil_le_ceil (by linarith)
    omega
  have hlow : ∀ f : ℚ, f ≤ 0 → adjustedQueueDepth f = 3 := by
    intro f hf
    unfold adjustedQueueDepth
    have : ⌈f / 30 * 5⌉ ≤ ⌈(0 : ℚ)⌉ := Int.ceil_le_ceil (by linarith)
    rw [Int.ceil_zero] at this
    omega
  refine ⟨rfl, ?_, hmono, ?_, ?_⟩
  · show 3 ≤ adjustedQueueDepth fps ∧ adjustedQueueDepth fps ≤ 8
    unfold adjustedQueueDepth
    omega
  · intro f
    rcases le_or_lt f 0 with hf | hf
    · rw [hlow f hf, hlow (2 * f) (by linarith)]
    · exact hmono f (2 * f) (by linarith)
  · unfold adjustedQueueDepth
    norm_num
    rw [show ⌈(25 : ℚ) / 6⌉ = 5 by
      rw [Int.ceil_eq_iff]
      norm_num]
    rfl

/-- Witness for C4: monotonicity instantiated at `fps = 20 ≤ 40`. -/
theorem adjustQueueDepth_spec_witness :
    (20 : ℚ) ≤ 40 ∧ adjustedQueueDepth 20 ≤ adjustedQueueDepth 40 := by
  refine ⟨by norm_num, ?_⟩
  exact (adjustQueueDepth_spec ℕ ⟨[], ⟨3, .dropOldest, 30⟩, ⟨0, 0, 0⟩⟩
    30).2.2.1 20 40 (by norm_num)

/-- Claim C10: `adjustQueueDepth` only rewrites `config.maxSize`: queue,
counters, drop strategy and target fps are untouched (it never evicts), and
when the capacity has shrunk below the queue length every further `add`
evicts exactly one entry (the length stays the same, hence stays above the
capacity, and `framesDropped` goes up by one). -/
theorem adjustQueueDepth_frame (α : Type) (b : FrameBuffer α) (fps : ℚ) :
    ((b.adjustQueueDepth fps).queue = b.queue ∧
      (b.adjustQueueDepth fps).stats = b.stats ∧
      (b.adjustQueueDepth fps).config.dropStrategy = b.config.dropStrategy ∧
      (b.adjustQueueDepth fps).config.targetFps = b.config.targetFps) ∧
    (∀ (c : FrameBuffer α) (f : α), c.config.maxSize < c.queue.length →
      ((c.add f).1.queue.length = c.queue.length ∧
        c.config.maxSize < (c.add f).1.queue.length ∧
        (c.add f).1.stats.framesDropped = c.stats.framesDropped + 1)) := by
  refine ⟨⟨rfl, rfl, rfl, rfl⟩, ?_⟩
  intro c f hover
  have hne : c.queue ≠ [] := by
    intro h
    rw [h] at hover
    simp at hover
  have hlen : (c.add f).1.queue.length = c.queue.length := by
    unfold FrameBuffer.add
    rw [if_pos (le_of_lt hover)]
    cases c.config.dropStrategy <;>
      simp only [List.length_append, List.length_tail, List.length_dropLast,
        List.length_cons, List.length_nil] <;>
      · have : 0 < c.queue.length := List.length_pos.mpr hne
        omega
  refine ⟨hlen, by omega, ?_⟩
  unfold FrameBuffer.add
  rw [if_pos (le_of_lt hover)]

/-- Witness for C10: a buffer shrunk to capacity 3 with 5 queued chunks. -/
theorem adjustQueueDepth_frame_witness :
    (3 : ℕ) < 5 ∧
    ((FrameBuffer.add ⟨[1, 2, 3, 4, 5], ⟨3, .dropOldest, 30⟩, ⟨5, 0, 0⟩⟩
        (6 : ℕ)).1.queue.length = 5) := by
  refine ⟨by decide, ?_⟩
  exact ((adjustQueueDepth_frame ℕ
      ⟨[1, 2, 3, 4, 5], ⟨3, .dropOldest, 30⟩, ⟨5, 0, 0⟩⟩ 30).2
      ⟨[1, 2, 3, 4, 5], ⟨3, .dropOldest, 30⟩, ⟨5, 0, 0⟩⟩ 6 (by decide)).1

/-! ## Region crop (`src/hooks/useVideoRecorder.ts` `startRecording`,
mirrored by the preview in `src/components/VideoRecorder.tsx`) -/

/-- A normalized recording region: fractions of the capture surface. -/
structure Region where
  x : ℚ
  y : ℚ
  width : ℚ
  height : ℚ
  deriving DecidableEq

/-- A crop rectangle in capture-pixel space. -/
structure CropRect where
  cropX : ℤ
  cropY : ℤ
  cropWidth : ℤ
  cropHeight : ℤ
  deriving DecidableEq

/-- The crop computation of the recording compositor (and, identically, of
the preview canvas):
`cropX = Math.max(0, Math.min(width - 1, Math.floor(region.x * width)))`,
`cropWidth = Math.max(1, Math.min(width - cropX, Math.floor(region.width * width)))`,
and likewise for `y`/`height`. -/
def computeCropRect (region : Region) (width height : ℤ) : CropRect :=
  let rawCropX := region.x * (width : ℚ)
  let rawCropY := region.y * (height : ℚ)
  let rawCropWidth := region.width * (width : ℚ)
  let rawCropHeight := region.height * (height : ℚ)
  let cropX := max 0 (min (width - 1) ⌊rawCropX⌋)
  let cropY := max 0 (min (height - 1) ⌊rawCropY⌋)
  let cropWidth := max 1 (min (width - cropX) ⌊rawCropWidth⌋)
  let cropHeight := max 1 (min (height - cropY) ⌊rawCropHeight⌋)
  ⟨cropX, cropY, cropWidth, cropHeight⟩

/-- Claim C2: for any region with components in `[0, 1]` and any capture
surface of positive pixel size, the computed crop rectangle stays inside the
surface: `0 ≤ cropX`, `0 ≤ cropY`, `cropX + cropWidth ≤ W` and
`cropY + cropHeight ≤ H`. -/
theorem computeCropRect_in_bounds (region : Region) (W H : ℤ)
    (hx0 : 0 ≤ region.x) (hx1 : region.x ≤ 1)
    (hy0 : 0 ≤ region.y) (hy1 : region.y ≤ 1)
    (hw0 : 0 ≤ region.width) (hw1 : region.width ≤ 1)
    (hh0 : 0 ≤ region.height) (hh1 : region.height ≤ 1)
    (hW : 0 < W) (hH : 0 < H) :
    0 ≤ (computeCropRect region W H).cropX ∧
    0 ≤ (computeCropRect region W H).cropY ∧
    (computeCropRect region W H).cropX + (computeCropRect region W H).cropWidth ≤ W ∧
    (computeCropRect region W H).cropY + (computeCropRect region W H).cropHeight ≤ H := by
  simp only [computeCropRect]
  refine ⟨?_, ?_, ?_, ?_⟩ <;> omega

/-- Witness for C2: Scenario B, `region = (1/4, 1/4, 1/2, 1/2)` on a
1920 × 1080 capture surface. -/
theorem computeCropRect_in_bounds_witness :
    (computeCropRect ⟨1/4, 1/4, 1/2, 1/2⟩ 1920 1080 = ⟨480, 270, 960, 540⟩) ∧
    (0 ≤ (computeCropRect ⟨1/4, 1/4, 1/2, 1/2⟩ 1920 1080).cropX ∧
      0 ≤ (computeCropRect ⟨1/4, 1/4, 1/2, 1/2⟩ 1920 1080).cropY ∧
      (computeCropRect ⟨1/4, 1/4, 1/2, 1/2⟩ 1920 1080).cropX +
        (computeCropRect ⟨1/4, 1/4, 1/2, 1/2⟩ 1920 1080).cropWidth ≤ 1920 ∧
      (computeCropRect ⟨1/4, 1/4, 1/2, 1/2⟩ 1920 1080).cropY +
        (computeCropRect ⟨1/4, 1/4, 1/2, 1/2⟩ 1920 1080).cropHeight ≤ 1080) := by
  constructor
  · simp only [computeCropRect, CropRect.mk.injEq]
    norm_num
  · exact computeCropRect_in_bounds ⟨1/4, 1/4, 1/2, 1/2⟩ 1920 1080
      (by norm_num) (by norm_num) (by norm_num) (by norm_num)
      (by norm_num) (by norm_num) (by norm_num) (by norm_num)
      (by norm_num) (by norm_num)

/-! ## Composite vs direct mode (`startRecording`, step 4) -/

/-- The inputs of the pipeline-mode decision: the camera toggle, whether the
camera feed was actually acquired (`cameraStreamRef.current` non-null), and
the optional normalized region. -/
structure StreamConfig where
  includeCamera : Bool
  cameraAcquired : Bool
  region : Option Region

/-- The two recording pipelines. -/
inductive RecMode where
  | composite
  | direct
  deriving DecidableEq

/-- Which stream is handed to the encoder. -/
inductive VideoSource where
  | canvasCapture
  | displayStream
  deriving DecidableEq

/-- The mode decision:
`if ((includeCamera && cameraStreamRef.current) || hasRegion)` use the
canvas compositor, else direct. -/
def selectMode (c : StreamConfig) : RecMode :=
  if (c.includeCamera && c.cameraAcquired) || c.region.isSome then
    .composite
  else
    .direct

/-- The stream fed to the recorder: the canvas capture stream in composite
mode, the raw display stream in direct mode. -/
def selectVideoSource (c : StreamConfig) : VideoSource :=
  match selectMode c with
  | .composite => .canvasCapture
  | .direct => .displayStream

/-- Claim C5: composite mode is used iff a region is specified or the webcam
overlay is active (camera enabled and its feed acquired); otherwise direct
mode passes the raw display stream to the encoder with no canvas step. -/
theorem selectMode_composite_iff (c : StreamConfig) :
    (selectMode c = .composite ↔
      (c.region.isSome = true ∨ (c.includeCamera = true ∧ c.cameraAcquired = true))) ∧
    (selectMode c = .direct ↔ selectVideoSource c = .displayStream) := by
  rcases c with ⟨cam, acq, region⟩
  cases cam <;> cases acq <;> cases region <;>
    simp [selectMode, selectVideoSource]

/-! ## License duration limit (`useVideoRecorder.ts` license effect and
`src/services/geminiService.ts` `getMaxRecordingDuration`) -/

/-- `getMaxRecordingDuration`: `0` (unlimited) for an authorized device,
`600` seconds otherwise. -/
def getMaxRecordingDuration (authorized : Bool) : ℕ :=
  if authorized then 0 else 600

/-- The recorder state observed by the license-limit effect, plus a counter
of license-upsell notices (`alert` calls). -/
structure RecorderUIState where
  isRecording : Bool
  isPaused : Bool
  recordingDuration : ℕ
  upsellNotices : ℕ
  deriving DecidableEq

/-- `stopRecording` as observed by the effect: the recorder is stopped and
both flags are cleared. -/
def stopRecordingStep (s : RecorderUIState) : RecorderUIState :=
  { s with isRecording := false, isPaused := false }

/-- The license-limit effect: while `Recording` and not `Paused`, if the
max duration is positive and reached, force `stopRecording` and show the
upsell notice. -/
def licenseDurationEffect (authorized : Bool) (s : RecorderUIState) : RecorderUIState :=
  if s.isRecording && !s.isPaused then
    let maxDuration := getMaxRecordingDuration authorized
    if 0 < maxDuration ∧ maxDuration ≤ s.recordingDuration then
      let s1 := stopRecordingStep s
      { s1 with upsellNotices := s1.upsellNotices + 1 }
    else
      s
  else
    s

/-- Claim C6: while `Recording` and not `Paused`, once the positive max
duration `m` is reached the effect force-stops the recording and shows the
upsell notice exactly once (a second run of the effect changes nothing);
with `m = 0` the effect never stops anything; the unlicensed value of `m`
is 600 seconds. -/
theorem licenseDurationEffect_spec (s : RecorderUIState) (authorized : Bool)
    (hrec : s.isRecording = true) (hp : s.isPaused = false)
    (hm : 0 < getMaxRecordingDuration authorized)
    (hd : getMaxRecordingDuration authorized ≤ s.recordingDuration) :
    ((licenseDurationEffect authorized s).isRecording = false ∧
      (licenseDurationEffect authorized s).upsellNotices = s.upsellNotices + 1) ∧
    (∀ t : RecorderUIState,
      licenseDurationEffect authorized (licenseDurationEffect authorized t)
        = licenseDurationEffect authorized t) ∧
    (∀ (t : RecorderUIState) (a : Bool), getMaxRecordingDuration a = 0 →
      licenseDurationEffect a t = t) ∧
    getMaxRecordingDuration false = 600 := by
  refine ⟨?_, ?_, ?_, rfl⟩
  · unfold licenseDurationEffect
    rw [hrec, hp]
    simp only [Bool.not_false, Bool.and_self, if_true]
    rw [if_pos ⟨hm, hd⟩]
    exact ⟨rfl, rfl⟩
  · intro t
    by_cases h1 : (t.isRecording && !t.isPaused) = true
    · by_cases h2 : 0 < getMaxRecordingDuration authorized ∧
          getMaxRecordingDuration authorized ≤ t.recordingDuration
      · have hstep : licenseDurationEffect authorized t =
            { stopRecordingStep t with
              upsellNotices := (stopRecordingStep t).upsellNotices + 1 } := by
          unfold licenseDurationEffect
          rw [if_pos h1, if_pos h2]
        rw [hstep]
        simp [licenseDurationEffect, stopRecordingStep]
      · have hid : licenseDurationEffect authorized t = t := by
          unfold licenseDurationEffect
          rw [if_pos h1, if_neg h2]
        simp only [hid]
    · have hid : licenseDurationEffect authorized t = t := by
        unfold licenseDurationEffect
        rw [if_neg h1]
      simp only [hid]
  · intro t a hzero
    unfold licenseDurationEffect
    rw [hzero]
    simp

/-- Witness for C6: Scenario D, an unlicensed device at 600 seconds. -/
theorem licenseDurationEffect_spec_witness :
    ((⟨true, false, 600, 0⟩ : RecorderUIState).isRecording = true ∧
      0 < getMaxRecordingDuration false ∧
      getMaxRecordingDuration false ≤ 600) ∧
    ((licenseDurationEffect false ⟨true, false, 600, 0⟩).isRecording = false ∧
      (licenseDurationEffect false ⟨true, false, 600, 0⟩).upsellNotices = 0 + 1) := by
  refine ⟨⟨rfl, by decide, by decide⟩, ?_⟩
  exact (licenseDurationEffect_spec ⟨true, false, 600, 0⟩ false rfl rfl
    (by decide) (by decide)).1

/-! ## The `startRecording` re-entrancy guard (`useVideoRecorder.ts`) -/

/-- Recorder lifecycle phases as the spec names them. -/
inductive Phase where
  | idle
  | starting
  | recording
  | paused
  | stopping
  deriving DecidableEq

/-- The hook state observed by `startRecording`: the lifecycle phase, the
`isProcessingRef` flag, and effect counters for the side effects the guard
is supposed to prevent (display-feed acquisitions, `MediaRecorder`
constructions, temp-file streams opened). -/
structure HookState where
  phase : Phase
  isProcessing : Bool
  feedAcquisitions : ℕ
  recordersCreated : ℕ
  tempFilesOpened : ℕ
  deriving DecidableEq

/-- `startRecording` (successful path, run to completion): the only guard is
`if (isProcessingRef.current) return;`.  Otherwise the body sets the flag,
acquires the display feed, opens the temp-file stream, creates and starts
the `MediaRecorder`, sets `isRecording`, and the `finally` block clears the
flag again (`setIsProcessingRef(false)`), so the completed-start state has
`isProcessing = false` while the phase is `recording`. -/
def startRecording (s : HookState) : HookState :=
  if s.isProcessing then
    s
  else
    { s with
      phase := .recording
      isProcessing := false
      feedAcquisitions := s.feedAcquisitions + 1
      recordersCreated := s.recordersCreated + 1
      tempFilesOpened := s.tempFilesOpened + 1 }

/-- Counterexample to C1: after a completed successful start the session is
`recording` but the `finally` block has already cleared `isProcessingRef`,
so a second `startRecording` call is not rejected: it acquires another feed,
creates another recorder and opens another temp file. -/
theorem startRecording_guard_counterexample :
    startRecording ⟨.idle, false, 0, 0, 0⟩ = ⟨.recording, false, 1, 1, 1⟩ ∧
    (startRecording ⟨.recording, false, 1, 1, 1⟩).feedAcquisitions = 2 ∧
    (startRecording ⟨.recording, false, 1, 1, 1⟩).recordersCreated = 2 ∧
    (startRecording ⟨.recording, false, 1, 1, 1⟩).tempFilesOpened = 2 ∧
    startRecording ⟨.recording, false, 1, 1, 1⟩ ≠ ⟨.recording, false, 1, 1, 1⟩ := by
  refine ⟨rfl, rfl, rfl, rfl, ?_⟩
  intro h
  have := congrArg HookState.feedAcquisitions h
  simp [startRecording] at this

/-- Claim C1 (amended): the `already processing` flag rejects a
`startRecording` call exactly while it is set, i.e. while a previous start
invocation is still in flight; a rejected call is a complete no-op.  Once
the start body completes, the `finally` block has cleared the flag, so any
later call (in particular while `recording` or `paused`) passes the guard
and performs the start side effects again. -/
theorem startRecording_guard_inflight_only (s : HookState)
    (h : s.isProcessing = true) :
    startRecording s = s ∧
    (∀ t : HookState, t.isProcessing = false →
      ((startRecording t).feedAcquisitions = t.feedAcquisitions + 1 ∧
        (startRecording t).recordersCreated = t.recordersCreated + 1 ∧
        (startRecording t).tempFilesOpened = t.tempFilesOpened + 1 ∧
        (startRecording t).isProcessing = false ∧
        (startRecording t).phase = .recording)) := by
  constructor
  · unfold startRecording
    rw [if_pos h]
  · intro t ht
    unfold startRecording
    rw [if_neg (by simp [ht])]
    exact ⟨rfl, rfl, rfl, rfl, rfl⟩

/-- Witness for the amended C1: a call during an in-flight start is a no-op;
a call made while recording (flag cleared) acquires a second feed. -/
theorem startRecording_guard_inflight_only_witness :
    ((⟨.starting, true, 1, 0, 0⟩ : HookState).isProcessing = true) ∧
    startRecording ⟨.starting, true, 1, 0, 0⟩ = ⟨.starting, true, 1, 0, 0⟩ ∧
    (startRecording ⟨.recording, false, 1, 1, 1⟩).feedAcquisitions = 1 + 1 := by
  refine ⟨rfl, ?_, ?_⟩
  · exact (startRecording_guard_inflight_only ⟨.starting, true, 1, 0, 0⟩ rfl).1
  · exact ((startRecording_guard_inflight_only ⟨.starting, true, 1, 0, 0⟩ rfl).2
      ⟨.recording, false, 1, 1, 1⟩ rfl).1

/-! ## `stop-recording-stream` result shapes (`src/index.tsx`) -/

/-- The three result shapes the IPC handler resolves with. -/
inductive StopResult where
  | ok (path : String)
  | err (msg : String)
  | canceled
  deriving DecidableEq

/-- The environment of one `stop-recording-stream` invocation:
whether a write stream is active, whether a temp path was recorded,
the save-dialog outcome (`none` models `canceled || !filePath`), and the
outcome of the transcode/copy stage. -/
structure StopEnv where
  hasActiveStream : Bool
  hasTempPath : Bool
  dialogPath : Option String
  transcodeResult : Except String Unit

/-- The `stop-recording-stream` handler: guard on an active stream and a
temp path, prompt the save dialog (declining deletes the temp file and
resolves `canceled`), then transcode; success deletes the temp file and
resolves with the output path, a transcode error leaves the temp file in
place and resolves with the error message.  The second component records
whether the temporary intermediate file was deleted. -/
def stopRecordingStream (env : StopEnv) : StopResult × Bool :=
  if env.hasActiveStream = false then
    (.err "No active stream", false)
  else if env.hasTempPath = false then
    (.err "No temp file path", false)
  else
    match env.dialogPath with
    | none => (.canceled, true)
    | some filePath =>
      match env.transcodeResult with
      | .ok _ => (.ok filePath, true)
      | .error e => (.err e, false)

/-- Claim C8: with an active stream (and its temp path) the handler resolves
with exactly one of `ok`, `err`, `canceled`; the `canceled` result occurs
exactly when the user declines the save dialog; and the temp file is deleted
exactly on `ok` or `canceled`, never on a transcode error. -/
theorem stopRecordingStream_spec (env : StopEnv)
    (hactive : env.hasActiveStream = true) (htemp : env.hasTempPath = true) :
    ((∃ p, (stopRecordingStream env).1 = .ok p) ∨
      (∃ m, (stopRecordingStream env).1 = .err m) ∨
      (stopRecordingStream env).1 = .canceled) ∧
    ((stopRecordingStream env).1 = .canceled ↔ env.dialogPath = none) ∧
    ((stopRecordingStream env).2 = true ↔
      ((stopRecordingStream env).1 = .canceled ∨
        ∃ p, (stopRecordingStream env).1 = .ok p)) := by
  unfold stopRecordingStream
  rw [if_neg (by simp [hactive]), if_neg (by simp [htemp])]
  rcases env with ⟨a, t, dialog, res⟩
  rcases dialog with _ | p
  · exact ⟨Or.inr (Or.inr rfl), by simp, by simp⟩
  · rcases res with e | u
    · refine ⟨Or.inr (Or.inl ⟨e, rfl⟩), by simp, by simp⟩
    · refine ⟨Or.inl ⟨p, rfl⟩, by simp, by simp⟩

/-- Witness for C8: the user declines the save dialog; the handler resolves
`canceled` and the temp file is deleted. -/
theorem stopRecordingStream_spec_witness :
    ((⟨true, true, none, .ok ()⟩ : StopEnv).hasActiveStream = true) ∧
    ((stopRecordingStream ⟨true, true, none, .ok ()⟩).1 = .canceled ↔
      (⟨true, true, none, .ok ()⟩ : StopEnv).dialogPath = none) := by
  exact ⟨rfl, (stopRecordingStream_spec ⟨true, true, none, .ok ()⟩ rfl rfl).2.1⟩

/-! ## MP4 second-stage transcode decision (`src/index.tsx`) -/

/-- The audio-compatibility test of the re-encode branch:
`audioCodec === 'aac' || audioCodec === 'mp3'`. -/
def compatibleAudio (a : Option String) : Bool :=
  decide (a = some "aac" ∨ a = some "mp3")

/-- The whole-file stream-copy probe decision:
`videoCodec === 'h264' && (audioCodec === 'aac' || audioCodec === 'mp3' || !audioCodec)`. -/
def mp4UseStreamCopy (v a : Option String) : Bool :=
  decide (v = some "h264" ∧ (a = some "aac" ∨ a = some "mp3" ∨ a = none))

/-- The fixed x264 tuning parameters of the video re-encode branch. -/
def x264Params : String :=
  "keyint=250:min-keyint=25:scenecut=60:ref=6:bframes=6:me=umh:subme=9:merange=24:trellis=2:aq-mode=2:aq-strength=1.0"

/-- Per-track video options of the re-encode branch: stream copy when the
probed codec is already H.264, else a libx264 re-encode with the
tier-derived preset/CRF and the fixed tuning parameters. -/
def mp4VideoTrackOptions (v : Option String) (preset : String) (crf : ℕ) :
    List String :=
  if v = some "h264" then
    ["-c:v", "copy"]
  else
    ["-c:v", "libx264", "-preset", preset, "-crf", toString crf,
     "-profile:v", "high", "-level", "4.2", "-pix_fmt", "yuv420p",
     "-threads", "0", "-tune", "film", "-x264-params", x264Params]

/-- Per-track audio options of the re-encode branch: stream copy when the
probed codec is AAC or MP3, else re-encode to AAC 192k, 48 kHz, stereo. -/
def mp4AudioTrackOptions (a : Option String) : List String :=
  if compatibleAudio a = true then
    ["-c:a", "copy"]
  else
    ["-c:a", "aac", "-b:a", "192k", "-ar", "48000", "-ac", "2"]

/-- The complete output-option list the handler builds for an MP4 target:
whole-file `-c copy` (plus faststart and sync flags) when the probe decision
holds, otherwise the per-track options followed by faststart, the sync flags
and the fixed output frame rate `-r 30`. -/
def mp4OutputOptions (v a : Option String) (preset : String) (crf : ℕ) :
    List String :=
  if mp4UseStreamCopy v a = true then
    ["-c", "copy", "-movflags", "+faststart", "-async", "1", "-vsync", "cfr"]
  else
    mp4VideoTrackOptions v preset crf ++ mp4AudioTrackOptions a ++
      ["-movflags", "+faststart"] ++ ["-async", "1", "-vsync", "cfr", "-r", "30"]

/-- Whether the emitted options stream-copy the video track (either through
whole-file copy or through `-c:v copy`). -/
def videoCopySelected (v a : Option String) : Bool :=
  mp4UseStreamCopy v a || (!mp4UseStreamCopy v a && decide (v = some "h264"))

/-- Whether the emitted options stream-copy the audio track (either through
whole-file copy or through `-c:a copy`). -/
def audioCopySelected (v a : Option String) : Bool :=
  mp4UseStreamCopy v a || (!mp4UseStreamCopy v a && compatibleAudio a)

/-- Counterexample to C7: for an input with a non-H.264 video codec and no
audio track (`vp9`/`none`, the typical WebM intermediate without audio), the
claimed iff — audio is stream-copied whenever the audio codec is compatible
or absent — fails: the handler takes the re-encode branch and emits the
AAC re-encode options, not a copy. -/
theorem mp4AudioCopy_claim_counterexample :
    ¬ (audioCopySelected (some "vp9") none = true ↔
        (compatibleAudio none = true ∨ (none : Option String) = none)) ∧
    mp4AudioTrackOptions none =
      ["-c:a", "aac", "-b:a", "192k", "-ar", "48000", "-ac", "2"] ∧
    mp4UseStreamCopy (some "vp9") none = false := by
  refine ⟨?_, rfl, by decide⟩
  intro hiff
  have : audioCopySelected (some "vp9") none = true := hiff.mpr (Or.inr rfl)
  simp [audioCopySelected, mp4UseStreamCopy, compatibleAudio] at this

/-- Claim C7 (amended): the video track is stream-copied iff the probed
video codec is H.264; the audio track is stream-copied iff the probed audio
codec is AAC or MP3, or there is no audio track and the video is H.264
(whole-file copy); whole-file `-c copy` is chosen exactly when the video is
H.264 and the audio is AAC, MP3 or absent; a non-matching video track is
re-encoded with the tier-derived preset/CRF, the fixed x264 tuning
parameters and (in the re-encode branch) the fixed output frame rate
`-r 30`, and a non-matching audio track is re-encoded to AAC 192k, 48 kHz,
stereo. -/
theorem mp4StreamCopy_decision (v a : Option String) (preset : String) (crf : ℕ) :
    (videoCopySelected v a = true ↔ v = some "h264") ∧
    (audioCopySelected v a = true ↔
      (compatibleAudio a = true ∨ (a = none ∧ v = some "h264"))) ∧
    (mp4UseStreamCopy v a = true ↔
      (v = some "h264" ∧ (compatibleAudio a = true ∨ a = none))) ∧
    (mp4UseStreamCopy v a = true →
      mp4OutputOptions v a preset crf =
        ["-c", "copy", "-movflags", "+faststart", "-async", "1", "-vsync", "cfr"]) ∧
    (mp4UseStreamCopy v a = false →
      mp4OutputOptions v a preset crf =
        mp4VideoTrackOptions v preset crf ++ mp4AudioTrackOptions a ++
          ["-movflags", "+faststart", "-async", "1", "-vsync", "cfr", "-r", "30"]) ∧
    (v ≠ some "h264" →
      mp4VideoTrackOptions v preset crf =
        ["-c:v", "libx264", "-preset", preset, "-crf", toString crf,
         "-profile:v", "high", "-level", "4.2", "-pix_fmt", "yuv420p",
         "-threads", "0", "-tune", "film", "-x264-params", x264Params]) ∧
    (compatibleAudio a = false →
      mp4AudioTrackOptions a =
        ["-c:a", "aac", "-b:a", "192k", "-ar", "48000", "-ac", "2"]) := by
  refine ⟨?_, ?_, ?_, ?_, ?_, ?_, ?_⟩
  · unfold videoCopySelected mp4UseStreamCopy
    by_cases hv : v = some "h264"
    · simp [hv]
      tauto
    · simp [hv]
  · unfold audioCopySelected mp4UseStreamCopy compatibleAudio
    by_cases hv : v = some "h264" <;> by_cases ha : a = none <;>
      simp [hv, ha] <;> tauto
  · unfold mp4UseStreamCopy compatibleAudio
    simp
    tauto
  · intro hcopy
    unfold mp4OutputOptions
    rw [if_pos hcopy]
  · intro hnocopy
    unfold mp4OutputOptions
    rw [if_neg (by simp [hnocopy])]
    simp
  · intro hv
    unfold mp4VideoTrackOptions
    rw [if_neg hv]
  · intro ha
    unfold mp4AudioTrackOptions
    rw [if_neg (by simp [ha])]

/-- Witness for the amended C7: an H.264/AAC probe selects whole-file copy
with the exact copy options; a VP9/Opus probe re-encodes both tracks. -/
theorem mp4StreamCopy_decision_witness :
    (mp4UseStreamCopy (some "h264") (some "aac") = true ∧
      mp4OutputOptions (some "h264") (some "aac") "fast" 23 =
        ["-c", "copy", "-movflags", "+faststart", "-async", "1", "-vsync", "cfr"]) ∧
    (compatibleAudio (some "opus") = false ∧
      mp4AudioTrackOptions (some "opus") =
        ["-c:a", "aac", "-b:a", "192k", "-ar", "48000", "-ac", "2"]) := by
  refine ⟨⟨by decide, ?_⟩, ⟨by decide, ?_⟩⟩
  · exact (mp4StreamCopy_decision (some "h264") (some "aac") "fast" 23).2.2.2.1
      (by decide)
  · exact (mp4StreamCopy_decision (some "vp9") (some "opus") "fast" 23).2.2.2.2.2.2
      (by decide)

/-! ## Export-progress emission (`src/index.tsx`, `stop-recording-stream`) -/

/-- The events that drive the GIF-path progress reporting: the 500 ms
fallback interval, a native ffmpeg `progress.percent` report, and a native
`progress.timemark` report (given as seconds). -/
inductive GifEvent where
  | tick
  | nativePercent (p : ℚ)
  | nativeTime (t : ℚ)

/-- One step of the GIF-path progress logic, on the `lastProgress` cell:
the interval adds 5 while below 90; a native percent is clamped with
`Math.min(95, Math.max(5, p))` and emitted as is (no rounding); a timemark
is converted through the probed input duration `d` and clamped the same
way.  Returns the new `lastProgress` and the emitted values. -/
def gifStep (d : ℚ) (s : ℚ) : GifEvent → ℚ × List ℚ
  | .tick => if s < 90 then (s + 5, [s + 5]) else (s, [])
  | .nativePercent p => (min 95 (max 5 p), [min 95 (max 5 p)])
  | .nativeTime t =>
    if 0 < d then
      (min 95 (max 5 (t / d * 100)), [min 95 (max 5 (t / d * 100))])
    else
      (s, [])

/-- Run the GIF-path progress logic over a sequence of events, collecting
every emitted value. -/
def gifRun (d : ℚ) (s : ℚ) : List GifEvent → List ℚ
  | [] => []
  | e :: es => (gifStep d s e).2 ++ gifRun d (gifStep d s e).1 es

/-- The full emission sequence of one GIF export: the initial
`export-progress 5`, the mid-job emissions from `lastProgress = 5`, and the
final `export-progress 100`. -/
def gifEmissions (d : ℚ) (es : List GifEvent) : List ℚ :=
  5 :: (gifRun d 5 es ++ [100])

/-- The MP4-path emission of one native ffmpeg percent report:
`Math.round(Math.min(95, Math.max(10, progress.percent)))`
(`Math.round x = ⌊x + 1/2⌋` on this positive range). -/
def mp4NativeEmit (p : ℚ) : ℤ :=
  ⌊min 95 (max 10 p) + 1 / 2⌋

/-- A list of emitted percentages is monotonically non-decreasing. -/
def monotoneEmissions (l : List ℚ) : Prop :=
  l.Chain' (· ≤ ·)

/-- Counterexample to C9: a 500 ms tick (raising the synthetic value to 10)
followed by a native report of 7.5 % makes the GIF path emit
`[5, 10, 7.5, 100]` — the native value is emitted unrounded (not an
integer) and below its predecessor (not monotone); moreover the MP4 path
clamps native reports to `[10, 95]`, not `[5, 95]`: a native 7 is emitted
as 10 where a `[5, 95]` clamp would emit 7. -/
theorem exportProgress_claim_counterexample :
    gifEmissions 10 [.tick, .nativePercent (15 / 2)] = [5, 10, 15 / 2, 100] ∧
    ¬ monotoneEmissions (gifEmissions 10 [.tick, .nativePercent (15 / 2)]) ∧
    ¬ (∃ n : ℤ, (15 : ℚ) / 2 = (n : ℚ)) ∧
    mp4NativeEmit 7 = 10 ∧ min 95 (max 5 (7 : ℚ)) = 7 := by
  have hemit : gifEmissions 10 [GifEvent.tick, GifEvent.nativePercent (15 / 2)]
      = [5, 10, 15 / 2, 100] := by
    norm_num [gifEmissions, gifRun, gifStep, min_def, max_def]
  refine ⟨hemit, ?_, ?_, ?_, ?_⟩
  · rw [hemit]
    unfold monotoneEmissions
    intro hmono
    rcases hmono with _ | ⟨_, hmono⟩
    rcases hmono with _ | ⟨hle, _⟩
    norm_num at hle
  · rintro ⟨n, hn⟩
    have h2 : (15 : ℚ) = ((2 * n : ℤ) : ℚ) := by
      push_cast
      linarith
    have h3 : (15 : ℤ) = 2 * n := by exact_mod_cast h2
    omega
  · unfold mp4NativeEmit
    rw [show min 95 (max 10 (7 : ℚ)) = 10 by norm_num]
    norm_num
  · norm_num

/-- Claim C9 (amended): during one export the GIF path's mid-job emissions
all lie in `[5, 95]` (native reports clamped to `[5, 95]` but emitted
unrounded), while the MP4 path clamps native reports to `[10, 95]` and
rounds them to integers; the emitted sequence starts at 5 and ends at 100
but is not guaranteed monotone. -/
theorem exportProgress_bounds (d : ℚ) (es : List GifEvent) (p : ℚ) :
    (∀ q ∈ gifRun d 5 es, 5 ≤ q ∧ q ≤ 95) ∧
    (10 ≤ mp4NativeEmit p ∧ mp4NativeEmit p ≤ 95) ∧
    (gifEmissions d es).head? = some 5 := by
  have hclamp : ∀ r : ℚ, 5 ≤ min 95 (max 5 r) ∧ min 95 (max 5 r) ≤ 95 := by
    intro r
    exact ⟨le_min (by norm_num) (le_max_left 5 r), min_le_left 95 _⟩
  have hstep : ∀ (s : ℚ) (e : GifEvent), 5 ≤ s → s ≤ 95 →
      (5 ≤ (gifStep d s e).1 ∧ (gifStep d s e).1 ≤ 95) ∧
        (∀ q ∈ (gifStep d s e).2, 5 ≤ q ∧ q ≤ 95) := by
    intro s e h5 h95
    cases e with
    | tick =>
      by_cases hlt : s < 90
      · simp only [gifStep, if_pos hlt]
        refine ⟨⟨by linarith, by linarith⟩, ?_⟩
        intro q hq
        rw [List.mem_singleton] at hq
        subst hq
        exact ⟨by linarith, by linarith⟩
      · simp only [gifStep, if_neg hlt]
        refine ⟨⟨h5, h95⟩, ?_⟩
        intro q hq
        simp at hq
    | nativePercent r =>
      simp only [gifStep]
      refine ⟨hclamp r, ?_⟩
      intro q hq
      rw [List.mem_singleton] at hq
      subst hq
      exact hclamp r
    | nativeTime t =>
      by_cases hd : 0 < d
      · simp only [gifStep, if_pos hd]
        refine ⟨hclamp _, ?_⟩
        intro q hq
        rw [List.mem_singleton] at hq
        subst hq
        exact hclamp _
      · simp only [gifStep, if_neg hd]
        refine ⟨⟨h5, h95⟩, ?_⟩
        intro q hq
        simp at hq
  have hrun : ∀ (l : List GifEvent) (s : ℚ), 5 ≤ s → s ≤ 95 →
      ∀ q ∈ gifRun d s l, 5 ≤ q ∧ q ≤ 95 := by
    intro l
    induction l with
    | nil => intro s _ _ q hq; simp [gifRun] at hq
    | cons e es ih =>
      intro s h5 h95 q hq
      unfold gifRun at hq
      rcases List.mem_append.mp hq with hq | hq
      · exact (hstep s e h5 h95).2 q hq
      · exact ih (gifStep d s e).1 (hstep s e h5 h95).1.1
          (hstep s e h5 h95).1.2 q hq
  refine ⟨hrun es 5 (by norm_num) (by norm_num), ⟨?_, ?_⟩, rfl⟩
  · unfold mp4NativeEmit
    have h1 : (10 : ℚ) + 1 / 2 ≤ min 95 (max 10 p) + 1 / 2 := by
      have := le_min (show (10 : ℚ) ≤ 95 by norm_num) (le_max_left 10 p)
      linarith
    calc (10 : ℤ) = ⌊(10 : ℚ) + 1 / 2⌋ := by norm_num
      _ ≤ ⌊min 95 (max 10 p) + 1 / 2⌋ := Int.floor_le_floor h1
  · unfold mp4NativeEmit
    have h1 : min 95 (max 10 p) + 1 / 2 ≤ (95 : ℚ) + 1 / 2 := by
      have := min_le_left (95 : ℚ) (max 10 p)
      linarith
    calc ⌊min 95 (max 10 p) + 1 / 2⌋ ≤ ⌊(95 : ℚ) + 1 / 2⌋ :=
        Int.floor_le_floor h1
      _ = 95 := by norm_num

/-- Witness for the amended C9: a concrete run with a tick and one native
report keeps every mid-job emission inside `[5, 95]`. -/
theorem exportProgress_bounds_witness :
    ((10 : ℚ) ∈ gifRun 10 5 [.tick, .nativePercent (15 / 2)] → 5 ≤ (10 : ℚ) ∧ (10 : ℚ) ≤ 95) ∧
    (10 ≤ mp4NativeEmit 7 ∧ mp4NativeEmit 7 ≤ 95) := by
  refine ⟨?_, (exportProgress_bounds 10 [.tick, .nativePercent (15 / 2)] 7).2.1⟩
  exact (exportProgress_bounds 10 [.tick, .nativePercent (15 / 2)] 7).1 10

end CleanSnap
